import Mathlib

/-!
Shallow embedding of the realm FFI manager (`src/lib.rs`).

The source is a C-callable relay runtime manager: a process-wide
`RUNTIME_MAP : HashMap<String, (Runtime, usize, String)>` keyed by the string
`format!("{}-{}-{}-{}-{}", remote, host, path, tls, insecure)`, reference-counted
`start_realm` / `stop_realm` entry points, `Once`-guarded logging and DNS setup,
an ephemeral-port allocator, endpoint-configuration building, and an async `run`
that spawns a UDP and/or TCP worker per endpoint and joins them all.

We model the mutable process state (registry map, runtime construction and
shutdown, spawns, port-bind attempts, once-flags, warning log) explicitly, and
the fallible port bind (`bind_to_random_port` can fail, aborting the call) as an
`Option String` oracle supplied to `start_realm`.
-/

/-- Network options set by `create_net_conf` (`NetConf` in the `conf` module;
only the two fields touched by the source are modelled, both `Option<bool>`). -/
structure NetConf where
  use_udp : Option Bool
  no_tcp : Option Bool
deriving DecidableEq, Repr

/-- Default `NetConf` (`NetConf::default()`): both options unset. -/
def NetConf.default : NetConf :=
  { use_udp := none, no_tcp := none }

/-- Structure `EndpointConf` as constructed by `create_endpoint_conf` in `src/lib.rs`.
Fields never inspected by the embedded code are kept with simple types. -/
structure EndpointConf where
  listen : String
  remote : String
  extra_remotes : List String
  balance : Option String
  through : Option String
  interface : Option String
  listen_transport : Option String
  remote_transport : Option String
  network : NetConf
deriving DecidableEq, Repr

/-- Structure `EndpointInfo` (from the `conf` module), as destructured by `run`:
the built endpoint plus the two resolved worker flags. -/
structure EndpointInfo where
  endpoint : EndpointConf
  no_tcp : Bool
  use_udp : Bool
deriving DecidableEq, Repr

/-- The record stored in `RUNTIME_MAP` for one running instance:
`(tokio::runtime::Runtime, usize, String)` — here the runtime is identified by
a numeric handle issued at construction time. -/
structure InstanceRecord where
  runtimeId : Nat
  count : Nat
  listenAddr : String
deriving DecidableEq, Repr

/-- A spawned worker task of `run`: `tokio::spawn(run_udp(endpoint))` or
`tokio::spawn(run_tcp(endpoint))`. -/
inductive WorkerTask where
  | udp (e : EndpointConf)
  | tcp (e : EndpointConf)
deriving DecidableEq, Repr

/-- The observable process-wide state of the manager:
the registry map (`RUNTIME_MAP`), a counter issuing fresh runtime handles
(`create_runtime`), the set of runtimes shut down (`shutdown_background`),
the list of orchestrator spawns (`runtime.spawn(run(endpoints))`),
the number of port-bind attempts (`bind_to_random_port`), the two `Once`
flags with their executed-setup counters, and the keys warned about by
`stop_realm`. -/
structure SysState where
  registry : String → Option InstanceRecord
  nextRuntimeId : Nat
  shutdownIds : List Nat
  spawned : List (Nat × List EndpointInfo)
  bindAttempts : Nat
  logInit : Bool
  dnsInit : Bool
  logRuns : Nat
  dnsRuns : Nat
  warnedKeys : List String

/-- Pointwise update of the registry map (insert / overwrite / remove a key). -/
def updateReg (reg : String → Option InstanceRecord) (k : String)
    (v : Option InstanceRecord) : String → Option InstanceRecord :=
  fun k' => if k' = k then v else reg k'

/-- The configuration key:
`format!("{}-{}-{}-{}-{}", remote, host, path, tls, insecure)`,
where Rust displays booleans as `true` / `false`. -/
def configKey (remote host path : String) (tls insecure : Bool) : String :=
  remote ++ "-" ++ host ++ "-" ++ path ++ "-" ++
    (if tls then "true" else "false") ++ "-" ++
    (if insecure then "true" else "false")

/-- Model of `initialize_once`: run `setup_log` under `LOG_INIT` and `setup_dns` under
`DNS_INIT`, each only if its `Once` has not fired yet. -/
def init_once (st : SysState) : SysState :=
  let st1 :=
    if st.logInit then st
    else { st with logInit := true, logRuns := st.logRuns + 1 }
  if st1.dnsInit then st1
  else { st1 with dnsInit := true, dnsRuns := st1.dnsRuns + 1 }

/-- Model of `create_net_conf`: start from `NetConf::default()` and set
`use_udp = Some(true)`, `no_tcp = Some(false)`. -/
def create_net_conf : NetConf :=
  { NetConf.default with use_udp := some true, no_tcp := some false }

/-- The `remote_transport` descriptor string built by `create_endpoint_conf`:
the three `format!` branches on `tls` / `insecure`, plain concatenation with no
escaping of the input strings. -/
def remoteTransportStr (remote path : String) (tls insecure : Bool) : String :=
  if tls then
    if insecure then
      "ws;host=" ++ remote ++ ";path=" ++ path ++ ";tls;sni=" ++ remote ++ ";insecure"
    else
      "ws;host=" ++ remote ++ ";path=" ++ path ++ ";tls;sni=" ++ remote
  else
    "ws;host=" ++ remote ++ ";path=" ++ path

/-- Model of `create_endpoint_conf`: the `EndpointConf` literal from the source. -/
def create_endpoint_conf (remote : String) (listen_addr : String) (net : NetConf)
    (path : String) (tls insecure : Bool) : EndpointConf :=
  { listen := listen_addr
    remote := remote
    extra_remotes := []
    balance := none
    through := none
    interface := none
    listen_transport := none
    remote_transport := some (remoteTransportStr remote path tls insecure)
    network := net }

/-- Modelled from the spec: `Config::build` lives in the `conf` module, which is
absent from the sources; per §3 (NetworkOptions: "two independent booleans —
enable-UDP-worker, disable-TCP-worker") it resolves the endpoint's optional
network flags into the two concrete worker booleans of `EndpointInfo`, an unset
option meaning the worker type is neither enabled (`use_udp`) nor disabled
(`no_tcp`). -/
def Config.build (e : EndpointConf) : EndpointInfo :=
  { endpoint := e
    no_tcp := e.network.no_tcp.getD false
    use_udp := e.network.use_udp.getD false }

/-- Model of `build_endpoints`: wrap the single endpoint in a vector and map
`Config::build` over it. -/
def build_endpoints (e : EndpointConf) : List EndpointInfo :=
  [e].map Config.build

/-- Model of `start_realm`. The port oracle stands for `bind_to_random_port`: `some addr`
when the OS bind succeeds with address `addr` (always of shape
`127.0.0.1:<port>`), `none` when binding fails, which aborts the call.
Returns the new state and the listen address handed back to C (or `none` when
the call aborted). -/
def start_realm (remote host path : String) (tls insecure : Bool)
    (port : Option String) (st : SysState) : SysState × Option String :=
  let st := init_once st
  let key := configKey remote host path tls insecure
  match st.registry key with
  | some rec =>
      ({ st with registry := updateReg st.registry key
                    (some { rec with count := rec.count + 1 }) },
       some rec.listenAddr)
  | none =>
      let net := create_net_conf
      let st := { st with bindAttempts := st.bindAttempts + 1 }
      match port with
      | none => (st, none)
      | some listen_addr =>
          let endpoint := create_endpoint_conf remote listen_addr net path tls insecure
          let endpoints := build_endpoints endpoint
          let rid := st.nextRuntimeId
          ({ st with
              nextRuntimeId := rid + 1
              spawned := (rid, endpoints) :: st.spawned
              registry := updateReg st.registry key
                  (some { runtimeId := rid, count := 1, listenAddr := listen_addr }) },
           some listen_addr)

/-- Model of `stop_realm`: decrement the count for the key's record; at zero remove the
record and shut the runtime down; with no record, log a warning and return. -/
def stop_realm (remote host path : String) (tls insecure : Bool)
    (st : SysState) : SysState :=
  let key := configKey remote host path tls insecure
  match st.registry key with
  | some rec =>
      let c := rec.count - 1
      if c = 0 then
        { st with registry := updateReg st.registry key none
                  shutdownIds := rec.runtimeId :: st.shutdownIds }
      else
        { st with registry := updateReg st.registry key (some { rec with count := c }) }
  | none => { st with warnedKeys := key :: st.warnedKeys }

/-- One boundary call of the C ABI (with the port oracle for starts). -/
inductive BoundaryCall where
  | start (remote host path : String) (tls insecure : Bool) (port : Option String)
  | stop (remote host path : String) (tls insecure : Bool)

/-- Whether a boundary call is a `start_realm` call. -/
def BoundaryCall.isStart : BoundaryCall → Bool
  | .start _ _ _ _ _ _ => true
  | .stop _ _ _ _ _ => false

/-- Apply one boundary call to the process state (the returned address of a
start is dropped). -/
def applyCall (st : SysState) : BoundaryCall → SysState
  | .start r h p t i port => (start_realm r h p t i port st).1
  | .stop r h p t i => stop_realm r h p t i st

/-- Apply a sequence of boundary calls in order. -/
def applyCalls (st : SysState) (cs : List BoundaryCall) : SysState :=
  cs.foldl applyCall st

/-- The process state at load time: empty registry, no runtimes, both `Once`
flags unset. -/
def initState : SysState :=
  { registry := fun _ => none
    nextRuntimeId := 0
    shutdownIds := []
    spawned := []
    bindAttempts := 0
    logInit := false
    dnsInit := false
    logRuns := 0
    dnsRuns := 0
    warnedKeys := [] }

/-- The list of worker tasks spawned by `run` for a list of endpoints: for each
`EndpointInfo`, a UDP task if `use_udp`, then a TCP task unless `no_tcp`. -/
def runWorkers (endpoints : List EndpointInfo) : List WorkerTask :=
  endpoints.flatMap fun info =>
    (if info.use_udp then [WorkerTask.udp info.endpoint] else []) ++
    (if info.no_tcp then [] else [WorkerTask.tcp info.endpoint])

/-- Model of `join_all(workers).await`: `run` has terminated exactly when every spawned
worker task has terminated (given each task's own termination behaviour). -/
def runTerminates (endpoints : List EndpointInfo)
    (terminates : WorkerTask → Bool) : Bool :=
  (runWorkers endpoints).all terminates

/-- The registry invariant: every record in the map has count ≥ 1. -/
def registryInv (st : SysState) : Prop :=
  ∀ k rec, st.registry k = some rec → 1 ≤ rec.count

/-- Tight once-initialization invariant: each setup counter is 1 when its flag
is set and 0 otherwise. -/
def onceInv (st : SysState) : Prop :=
  (st.logRuns = if st.logInit then 1 else 0) ∧
  (st.dnsRuns = if st.dnsInit then 1 else 0)

/-- A concrete registry key used to exercise the theorems on explicit inputs. -/
def demoKey : String := configKey "example.com" "example.com" "/ws" true false

/-- A concrete instance record with two live references. -/
def demoRec : InstanceRecord :=
  { runtimeId := 7, count := 2, listenAddr := "127.0.0.1:5000" }

/-- A concrete state holding exactly the demo record. -/
def demoSt : SysState :=
  { initState with registry := updateReg initState.registry demoKey (some demoRec) }

/-- Running `initialize_once` touches only the two flags and their counters. -/
lemma init_once_registry (st : SysState) : (init_once st).registry = st.registry := by
  unfold init_once
  by_cases hl : st.logInit = true <;> by_cases hd : st.dnsInit = true <;> simp [hl, hd]

/-- Running `initialize_once` does not construct a runtime. -/
lemma init_once_nextRuntimeId (st : SysState) :
    (init_once st).nextRuntimeId = st.nextRuntimeId := by
  unfold init_once
  by_cases hl : st.logInit = true <;> by_cases hd : st.dnsInit = true <;> simp [hl, hd]

/-- Running `initialize_once` does not shut any runtime down. -/
lemma init_once_shutdownIds (st : SysState) :
    (init_once st).shutdownIds = st.shutdownIds := by
  unfold init_once
  by_cases hl : st.logInit = true <;> by_cases hd : st.dnsInit = true <;> simp [hl, hd]

/-- Running `initialize_once` spawns nothing. -/
lemma init_once_spawned (st : SysState) : (init_once st).spawned = st.spawned := by
  unfold init_once
  by_cases hl : st.logInit = true <;> by_cases hd : st.dnsInit = true <;> simp [hl, hd]

/-- Running `initialize_once` binds no port. -/
lemma init_once_bindAttempts (st : SysState) :
    (init_once st).bindAttempts = st.bindAttempts := by
  unfold init_once
  by_cases hl : st.logInit = true <;> by_cases hd : st.dnsInit = true <;> simp [hl, hd]

/-- Running `initialize_once` emits no stop warning. -/
lemma init_once_warnedKeys (st : SysState) :
    (init_once st).warnedKeys = st.warnedKeys := by
  unfold init_once
  by_cases hl : st.logInit = true <;> by_cases hd : st.dnsInit = true <;> simp [hl, hd]

/-- Looking up the updated key yields the new value. -/
lemma updateReg_same (reg : String → Option InstanceRecord) (k : String)
    (v : Option InstanceRecord) : updateReg reg k v k = v := by
  simp [updateReg]

/-- Looking up any other key is unchanged by the update. -/
lemma updateReg_other (reg : String → Option InstanceRecord) (k : String)
    (v : Option InstanceRecord) (k' : String) (h : k' ≠ k) :
    updateReg reg k v k' = reg k' := by
  simp [updateReg, h]

/-- The early-return branch of `start_realm` on a registry hit. -/
lemma start_realm_hit (r h p : String) (t i : Bool) (port : Option String)
    (st : SysState) (rec : InstanceRecord)
    (hrec : st.registry (configKey r h p t i) = some rec) :
    start_realm r h p t i port st =
      ({ init_once st with
          registry := updateReg st.registry (configKey r h p t i)
              (some { rec with count := rec.count + 1 }) },
       some rec.listenAddr) := by
  simp [start_realm, init_once_registry, hrec]

/-- The provisioning branch of `start_realm` on a registry miss with a
successful port bind. -/
lemma start_realm_miss_some (r h p : String) (t i : Bool) (addr : String)
    (st : SysState) (hmiss : st.registry (configKey r h p t i) = none) :
    start_realm r h p t i (some addr) st =
      ({ init_once st with
          bindAttempts := st.bindAttempts + 1
          nextRuntimeId := st.nextRuntimeId + 1
          spawned := (st.nextRuntimeId,
              build_endpoints (create_endpoint_conf r addr create_net_conf p t i))
            :: st.spawned
          registry := updateReg st.registry (configKey r h p t i)
              (some { runtimeId := st.nextRuntimeId, count := 1, listenAddr := addr }) },
       some addr) := by
  simp [start_realm, init_once_registry, init_once_nextRuntimeId, init_once_spawned,
    init_once_bindAttempts, hmiss]

/-- The aborting branch of `start_realm` on a registry miss with a failed bind. -/
lemma start_realm_miss_none (r h p : String) (t i : Bool) (st : SysState)
    (hmiss : st.registry (configKey r h p t i) = none) :
    start_realm r h p t i none st =
      ({ init_once st with bindAttempts := st.bindAttempts + 1 }, none) := by
  simp [start_realm, init_once_registry, init_once_bindAttempts, hmiss]

/-- The warning branch of `stop_realm` for an unknown key. -/
lemma stop_realm_unknown (r h p : String) (t i : Bool) (st : SysState)
    (hmiss : st.registry (configKey r h p t i) = none) :
    stop_realm r h p t i st =
      { st with warnedKeys := configKey r h p t i :: st.warnedKeys } := by
  simp [stop_realm, hmiss]

/-- The removal branch of `stop_realm` when the last reference is released. -/
lemma stop_realm_last (r h p : String) (t i : Bool) (st : SysState)
    (rec : InstanceRecord) (hrec : st.registry (configKey r h p t i) = some rec)
    (hc : rec.count = 1) :
    stop_realm r h p t i st =
      { st with registry := updateReg st.registry (configKey r h p t i) none
                shutdownIds := rec.runtimeId :: st.shutdownIds } := by
  simp [stop_realm, hrec, hc]

/-- The decrement branch of `stop_realm` when references remain. -/
lemma stop_realm_dec (r h p : String) (t i : Bool) (st : SysState)
    (rec : InstanceRecord) (hrec : st.registry (configKey r h p t i) = some rec)
    (hc : 2 ≤ rec.count) :
    stop_realm r h p t i st =
      { st with
          registry := updateReg st.registry (configKey r h p t i)
              (some { rec with count := rec.count - 1 }) } := by
  have hne : ¬ rec.count - 1 = 0 := by omega
  simp [stop_realm, hrec, hne]

/-- C6: the remote-transport descriptor is exactly
`ws;host=<remote>;path=<path>` without TLS,
`ws;host=<remote>;path=<path>;tls;sni=<remote>` with TLS verified, and
`ws;host=<remote>;path=<path>;tls;sni=<remote>;insecure` with TLS insecure —
fixed field order, semicolon-delimited, plain concatenation with no escaping of
`;` or `=` in `remote` or `path`. -/
theorem remote_transport_descriptor_exact (remote path listen : String)
    (net : NetConf) (tls insecure : Bool) :
    (create_endpoint_conf remote listen net path tls insecure).remote_transport =
      some (if tls then
              if insecure then
                "ws;host=" ++ remote ++ ";path=" ++ path ++ ";tls;sni=" ++ remote
                  ++ ";insecure"
              else
                "ws;host=" ++ remote ++ ";path=" ++ path ++ ";tls;sni=" ++ remote
            else
              "ws;host=" ++ remote ++ ";path=" ++ path) := rfl

/-- C1: on a registry hit, `start_realm` increments the record's count by one
and returns its stored listen address, with no port-bind attempt, no runtime
construction and no spawning; on a miss it provisions (binds a port, builds the
endpoint, creates a runtime, spawns the orchestrator) and inserts a fresh record
with count 1, returning the newly allocated address. -/
theorem start_realm_dedup_or_provision (r h p : String) (t i : Bool)
    (port : Option String) (st : SysState) :
    (∀ rec, st.registry (configKey r h p t i) = some rec →
      (start_realm r h p t i port st).2 = some rec.listenAddr ∧
      (start_realm r h p t i port st).1.registry (configKey r h p t i)
        = some { rec with count := rec.count + 1 } ∧
      (∀ k, k ≠ configKey r h p t i →
        (start_realm r h p t i port st).1.registry k = st.registry k) ∧
      (start_realm r h p t i port st).1.bindAttempts = st.bindAttempts ∧
      (start_realm r h p t i port st).1.nextRuntimeId = st.nextRuntimeId ∧
      (start_realm r h p t i port st).1.spawned = st.spawned) ∧
    (st.registry (configKey r h p t i) = none → ∀ addr, port = some addr →
      (start_realm r h p t i port st).2 = some addr ∧
      (start_realm r h p t i port st).1.registry (configKey r h p t i)
        = some { runtimeId := st.nextRuntimeId, count := 1, listenAddr := addr } ∧
      (∀ k, k ≠ configKey r h p t i →
        (start_realm r h p t i port st).1.registry k = st.registry k) ∧
      (start_realm r h p t i port st).1.spawned
        = (st.nextRuntimeId,
            build_endpoints (create_endpoint_conf r addr create_net_conf p t i))
          :: st.spawned ∧
      (start_realm r h p t i port st).1.nextRuntimeId = st.nextRuntimeId + 1 ∧
      (start_realm r h p t i port st).1.bindAttempts = st.bindAttempts + 1) := by
  constructor
  · intro rec hrec
    rw [start_realm_hit r h p t i port st rec hrec]
    refine ⟨rfl, by simp [updateReg], ?_, init_once_bindAttempts st,
      init_once_nextRuntimeId st, init_once_spawned st⟩
    intro k hk
    simp [updateReg, hk]
  · intro hmiss addr haddr
    subst haddr
    rw [start_realm_miss_some r h p t i addr st hmiss]
    refine ⟨rfl, by simp [updateReg], ?_, rfl, rfl, rfl⟩
    intro k hk
    simp [updateReg, hk]

/-- Witness for C1: both branches exercised on concrete states. -/
theorem start_realm_dedup_or_provision_witness :
    demoSt.registry (configKey "example.com" "example.com" "/ws" true false)
      = some demoRec ∧
    (start_realm "example.com" "example.com" "/ws" true false none demoSt).2
      = some demoRec.listenAddr ∧
    (start_realm "example.com" "example.com" "/ws" true false none demoSt).1.spawned
      = demoSt.spawned ∧
    initState.registry (configKey "a" "b" "c" false false) = none ∧
    (start_realm "a" "b" "c" false false (some "127.0.0.1:6000") initState).2
      = some "127.0.0.1:6000" := by
  have hrec : demoSt.registry (configKey "example.com" "example.com" "/ws" true false)
      = some demoRec := by decide
  have hmiss : initState.registry (configKey "a" "b" "c" false false) = none := rfl
  have h1 := (start_realm_dedup_or_provision "example.com" "example.com" "/ws"
    true false none demoSt).1 demoRec hrec
  have h2 := (start_realm_dedup_or_provision "a" "b" "c" false false
    (some "127.0.0.1:6000") initState).2 hmiss "127.0.0.1:6000" rfl
  exact ⟨hrec, h1.1, h1.2.2.2.2.2, hmiss, h2.1⟩

/-- C8: when the port bind fails on a registry miss, the `start_realm` call
aborts with no address returned, the registry map is unchanged (so instances
under every other key stay registered), nothing is spawned and no runtime is
constructed or shut down. -/
theorem start_realm_bind_failure (r h p : String) (t i : Bool) (st : SysState)
    (hmiss : st.registry (configKey r h p t i) = none) :
    (start_realm r h p t i none st).2 = none ∧
    (start_realm r h p t i none st).1.registry = st.registry ∧
    (start_realm r h p t i none st).1.spawned = st.spawned ∧
    (start_realm r h p t i none st).1.nextRuntimeId = st.nextRuntimeId ∧
    (start_realm r h p t i none st).1.shutdownIds = st.shutdownIds := by
  rw [start_realm_miss_none r h p t i st hmiss]
  exact ⟨rfl, init_once_registry st, init_once_spawned st,
    init_once_nextRuntimeId st, init_once_shutdownIds st⟩

/-- Witness for C8 at a concrete state containing an unrelated record. -/
theorem start_realm_bind_failure_witness :
    demoSt.registry (configKey "a" "b" "c" false false) = none ∧
    (start_realm "a" "b" "c" false false none demoSt).2 = none ∧
    (start_realm "a" "b" "c" false false none demoSt).1.registry = demoSt.registry := by
  have hmiss : demoSt.registry (configKey "a" "b" "c" false false) = none := by decide
  have h := start_realm_bind_failure "a" "b" "c" false false demoSt hmiss
  exact ⟨hmiss, h.1, h.2.1⟩

/-- C3: `stop_realm` on an unknown key logs a warning and changes no registry
or shutdown state; on a known record it decrements the count, removing the
record and shutting its runtime down exactly when the count reaches 0, and
otherwise leaving the record in place (with the decremented count) and the
instance running. -/
theorem stop_realm_behaviour (r h p : String) (t i : Bool) (st : SysState) :
    (st.registry (configKey r h p t i) = none →
      (stop_realm r h p t i st).registry = st.registry ∧
      (stop_realm r h p t i st).shutdownIds = st.shutdownIds ∧
      (stop_realm r h p t i st).warnedKeys
        = configKey r h p t i :: st.warnedKeys) ∧
    (∀ rec, st.registry (configKey r h p t i) = some rec → 2 ≤ rec.count →
      (stop_realm r h p t i st).registry (configKey r h p t i)
        = some { rec with count := rec.count - 1 } ∧
      (∀ k, k ≠ configKey r h p t i →
        (stop_realm r h p t i st).registry k = st.registry k) ∧
      (stop_realm r h p t i st).shutdownIds = st.shutdownIds) ∧
    (∀ rec, st.registry (configKey r h p t i) = some rec → rec.count = 1 →
      (stop_realm r h p t i st).registry (configKey r h p t i) = none ∧
      (∀ k, k ≠ configKey r h p t i →
        (stop_realm r h p t i st).registry k = st.registry k) ∧
      (stop_realm r h p t i st).shutdownIds = rec.runtimeId :: st.shutdownIds) := by
  refine ⟨?_, ?_, ?_⟩
  · intro hmiss
    rw [stop_realm_unknown r h p t i st hmiss]
    exact ⟨rfl, rfl, rfl⟩
  · intro rec hrec hc
    rw [stop_realm_dec r h p t i st rec hrec hc]
    exact ⟨by simp [updateReg], fun k hk => by simp [updateReg, hk], rfl⟩
  · intro rec hrec hc
    rw [stop_realm_last r h p t i st rec hrec hc]
    exact ⟨by simp [updateReg], fun k hk => by simp [updateReg, hk], rfl⟩

/-- Witness for C3: the unknown-key and decrement branches on concrete states. -/
theorem stop_realm_behaviour_witness :
    demoSt.registry (configKey "other" "b" "c" false false) = none ∧
    (stop_realm "other" "b" "c" false false demoSt).registry = demoSt.registry ∧
    demoSt.registry (configKey "example.com" "example.com" "/ws" true false)
      = some demoRec ∧
    2 ≤ demoRec.count ∧
    (stop_realm "example.com" "example.com" "/ws" true false demoSt).registry
        (configKey "example.com" "example.com" "/ws" true false)
      = some { demoRec with count := demoRec.count - 1 } := by
  have hnone : demoSt.registry (configKey "other" "b" "c" false false) = none := by
    decide
  have hsome : demoSt.registry (configKey "example.com" "example.com" "/ws" true false)
      = some demoRec := by decide
  have h1 := (stop_realm_behaviour "other" "b" "c" false false demoSt).1 hnone
  have h2 := (stop_realm_behaviour "example.com" "example.com" "/ws" true false
    demoSt).2.1 demoRec hsome (by decide)
  exact ⟨hnone, h1.1, hsome, by decide, h2.1⟩

/-- Every boundary call preserves the count ≥ 1 registry invariant. -/
lemma registryInv_applyCall (st : SysState) (c : BoundaryCall)
    (hinv : registryInv st) : registryInv (applyCall st c) := by
  cases c with
  | start r h p t i port =>
    rcases hcase : st.registry (configKey r h p t i) with _ | rec
    · cases port with
      | none =>
        intro k rec' hk
        simp only [applyCall, start_realm_miss_none r h p t i st hcase] at hk
        rw [init_once_registry] at hk
        exact hinv k rec' hk
      | some addr =>
        intro k rec' hk
        simp only [applyCall, start_realm_miss_some r h p t i addr st hcase] at hk
        by_cases hkk : k = configKey r h p t i
        · subst hkk
          rw [updateReg_same] at hk
          cases hk
          exact Nat.le_refl 1
        · rw [updateReg_other _ _ _ _ hkk] at hk
          exact hinv k rec' hk
    · intro k rec' hk
      simp only [applyCall, start_realm_hit r h p t i port st rec hcase] at hk
      by_cases hkk : k = configKey r h p t i
      · subst hkk
        rw [updateReg_same] at hk
        cases hk
        exact Nat.le_add_left 1 rec.count
      · rw [updateReg_other _ _ _ _ hkk] at hk
        exact hinv k rec' hk
  | stop r h p t i =>
    rcases hcase : st.registry (configKey r h p t i) with _ | rec
    · intro k rec' hk
      simp only [applyCall, stop_realm_unknown r h p t i st hcase] at hk
      exact hinv k rec' hk
    · have hc1 : 1 ≤ rec.count := hinv _ _ hcase
      by_cases hc : rec.count = 1
      · intro k rec' hk
        simp only [applyCall, stop_realm_last r h p t i st rec hcase hc] at hk
        by_cases hkk : k = configKey r h p t i
        · subst hkk
          rw [updateReg_same] at hk
          cases hk
        · rw [updateReg_other _ _ _ _ hkk] at hk
          exact hinv k rec' hk
      · have hc2 : 2 ≤ rec.count := by omega
        intro k rec' hk
        simp only [applyCall, stop_realm_dec r h p t i st rec hcase hc2] at hk
        by_cases hkk : k = configKey r h p t i
        · subst hkk
          rw [updateReg_same] at hk
          cases hk
          simp
          omega
        · rw [updateReg_other _ _ _ _ hkk] at hk
          exact hinv k rec' hk

/-- A key absent before a boundary call can become present only through the
provisioning branch of a start, which sets count = 1. -/
lemma created_with_count_one (st : SysState) (c : BoundaryCall) (k : String)
    (rec' : InstanceRecord) (hnone : st.registry k = none)
    (hsome : (applyCall st c).registry k = some rec') : rec'.count = 1 := by
  cases c with
  | start r h p t i port =>
    rcases hcase : st.registry (configKey r h p t i) with _ | rec
    · cases port with
      | none =>
        simp only [applyCall, start_realm_miss_none r h p t i st hcase] at hsome
        rw [init_once_registry, hnone] at hsome
        cases hsome
      | some addr =>
        simp only [applyCall, start_realm_miss_some r h p t i addr st hcase] at hsome
        by_cases hkk : k = configKey r h p t i
        · subst hkk
          rw [updateReg_same] at hsome
          cases hsome
          rfl
        · rw [updateReg_other _ _ _ _ hkk, hnone] at hsome
          cases hsome
    · simp only [applyCall, start_realm_hit r h p t i port st rec hcase] at hsome
      by_cases hkk : k = configKey r h p t i
      · subst hkk
        rw [hcase] at hnone
        cases hnone
      · rw [updateReg_other _ _ _ _ hkk, hnone] at hsome
        cases hsome
  | stop r h p t i =>
    rcases hcase : st.registry (configKey r h p t i) with _ | rec
    · simp only [applyCall, stop_realm_unknown r h p t i st hcase] at hsome
      rw [hnone] at hsome
      cases hsome
    · have hkk : k ≠ configKey r h p t i := by
        intro hkk
        rw [hkk, hcase] at hnone
        cases hnone
      by_cases hc : rec.count = 1
      · simp only [applyCall, stop_realm_last r h p t i st rec hcase hc] at hsome
        rw [updateReg_other _ _ _ _ hkk, hnone] at hsome
        cases hsome
      · rcases Nat.lt_or_ge rec.count 2 with hlt | hge
        · have hc0 : rec.count = 0 ∨ rec.count = 1 := by omega
          rcases hc0 with hc0 | hc0
          · have hc1 : rec.count - 1 = 0 := by omega
            simp only [applyCall, stop_realm, hcase, hc1, if_pos] at hsome
            rw [updateReg_other _ _ _ _ hkk, hnone] at hsome
            cases hsome
          · exact absurd hc0 hc
        · simp only [applyCall, stop_realm_dec r h p t i st rec hcase hge] at hsome
          rw [updateReg_other _ _ _ _ hkk, hnone] at hsome
          cases hsome

/-- With the invariant, a stop on an existing record removes it and shuts its
runtime down exactly when the count transitions to 0. -/
lemma stop_removes_iff (r h p : String) (t i : Bool) (st : SysState)
    (rec : InstanceRecord) (hrec : st.registry (configKey r h p t i) = some rec)
    (hc1 : 1 ≤ rec.count) :
    ((applyCall st (BoundaryCall.stop r h p t i)).registry (configKey r h p t i)
        = none ↔ rec.count - 1 = 0) ∧
    ((applyCall st (BoundaryCall.stop r h p t i)).shutdownIds
        = rec.runtimeId :: st.shutdownIds ↔ rec.count - 1 = 0) := by
  by_cases hc : rec.count = 1
  · simp only [applyCall, stop_realm_last r h p t i st rec hrec hc]
    constructor
    · simp [updateReg, hc]
    · simp [hc]
  · have hc2 : 2 ≤ rec.count := by omega
    simp only [applyCall, stop_realm_dec r h p t i st rec hrec hc2]
    constructor
    · simp [updateReg]
      omega
    · constructor
      · intro hlist
        exact absurd hlist.symm (List.cons_ne_self _ _)
      · intro hc0
        omega

/-- C4: the registry invariant (every record has count ≥ 1) is preserved by
every start/stop boundary call; a record is created only by a first successful
start and then carries count 1; and a stop on an existing record removes it and
shuts its runtime down exactly when the count transitions to 0. -/
theorem registry_record_invariant (st : SysState) (c : BoundaryCall)
    (hinv : registryInv st) :
    registryInv (applyCall st c) ∧
    (∀ k rec', st.registry k = none →
      (applyCall st c).registry k = some rec' → rec'.count = 1) ∧
    (∀ r h p t i rec, c = BoundaryCall.stop r h p t i →
      st.registry (configKey r h p t i) = some rec →
      ((applyCall st c).registry (configKey r h p t i) = none ↔
        rec.count - 1 = 0) ∧
      ((applyCall st c).shutdownIds = rec.runtimeId :: st.shutdownIds ↔
        rec.count - 1 = 0)) := by
  refine ⟨registryInv_applyCall st c hinv, ?_, ?_⟩
  · intro k rec' hnone hsome
    exact created_with_count_one st c k rec' hnone hsome
  · intro r h p t i rec hc hrec
    subst hc
    exact stop_removes_iff r h p t i st rec hrec (hinv _ _ hrec)

/-- Witness for C4 on the concrete demo state. -/
theorem registry_record_invariant_witness :
    registryInv demoSt ∧
    registryInv (applyCall demoSt
      (BoundaryCall.stop "example.com" "example.com" "/ws" true false)) := by
  have hinv : registryInv demoSt := by
    intro k rec hk
    by_cases hkk : k = demoKey
    · subst hkk
      simp [demoSt, initState, updateReg] at hk
      rw [← hk]
      decide
    · simp [demoSt, initState, updateReg, hkk] at hk
  exact ⟨hinv,
    (registry_record_invariant demoSt
      (BoundaryCall.stop "example.com" "example.com" "/ws" true false) hinv).1⟩

/-- Splitting at a separator character is unambiguous when neither prefix
contains the separator. -/
lemma append_sep_inj :
    ∀ (a b x y : List Char), '-' ∉ a → '-' ∉ b →
      a ++ '-' :: x = b ++ '-' :: y → a = b ∧ x = y := by
  intro a
  induction a with
  | nil =>
    intro b x y ha hb heq
    cases b with
    | nil =>
      simp at heq
      exact ⟨rfl, heq⟩
    | cons d bs =>
      simp at heq
      exact absurd (by rw [heq.1]; exact List.mem_cons_self d bs) hb
  | cons c as ih =>
    intro b x y ha hb heq
    cases b with
    | nil =>
      simp at heq
      exact absurd (by rw [← heq.1]; exact List.mem_cons_self c as) ha
    | cons d bs =>
      simp at heq
      obtain ⟨rfl, h2⟩ := heq
      have ha' : '-' ∉ as := fun hm => ha (List.mem_cons_of_mem _ hm)
      have hb' : '-' ∉ bs := fun hm => hb (List.mem_cons_of_mem _ hm)
      obtain ⟨h3, h4⟩ := ih bs x y ha' hb' h2
      exact ⟨by rw [h3], h4⟩

/-- The characters of the Rust boolean display determine the boolean. -/
lemma boolStr_data_inj (t t' : Bool)
    (heq : (if t then ("true" : String) else "false").data
        = (if t' then ("true" : String) else "false").data) : t = t' := by
  cases t <;> cases t' <;> first
    | rfl
    | exact absurd heq (by decide)

/-- The boolean display contains no dash. -/
lemma boolStr_no_dash (t : Bool) :
    '-' ∉ (if t then ("true" : String) else "false").data := by
  cases t <;> decide

/-- Counterexample for C2: the key joins the fields with `-` and performs no
escaping, so two requests that differ in the remote (and host) fields can
collide on the same key. -/
theorem configKey_collision_counterexample :
    configKey "a-b" "c" "/ws" true false = configKey "a" "b-c" "/ws" true false ∧
    ("a-b" : String) ≠ "a" ∧ ("c" : String) ≠ "b-c" := by
  refine ⟨rfl, by decide, by decide⟩

/-- C2 (amended): the key is a deterministic function of the 5-tuple, and for
requests whose remote, host and path contain no `-` character, two requests
produce the same key exactly when all five fields coincide; without that
restriction distinct tuples may collide. -/
theorem configKey_deterministic_and_injective
    (r h p r' h' p' : String) (t i t' i' : Bool)
    (hr : '-' ∉ r.data) (hh : '-' ∉ h.data) (hp : '-' ∉ p.data)
    (hr' : '-' ∉ r'.data) (hh' : '-' ∉ h'.data) (hp' : '-' ∉ p'.data) :
    configKey r h p t i = configKey r' h' p' t' i' ↔
      (r = r' ∧ h = h' ∧ p = p' ∧ t = t' ∧ i = i') := by
  constructor
  · intro heq
    have hd : (configKey r h p t i).data = (configKey r' h' p' t' i').data := by
      rw [heq]
    have hdash : ("-" : String).data = ['-'] := rfl
    simp only [configKey, String.data_append, hdash, List.append_assoc,
      List.singleton_append] at hd
    obtain ⟨e1, hd⟩ := append_sep_inj _ _ _ _ hr hr' hd
    obtain ⟨e2, hd⟩ := append_sep_inj _ _ _ _ hh hh' hd
    obtain ⟨e3, hd⟩ := append_sep_inj _ _ _ _ hp hp' hd
    obtain ⟨e4, e5⟩ := append_sep_inj _ _ _ _ (boolStr_no_dash t) (boolStr_no_dash t') hd
    exact ⟨String.ext e1, String.ext e2, String.ext e3,
      boolStr_data_inj t t' e4, boolStr_data_inj i i' e5⟩
  · rintro ⟨rfl, rfl, rfl, rfl, rfl⟩
    rfl

/-- Witness for the amended C2 at concrete dash-free inputs. -/
theorem configKey_deterministic_and_injective_witness :
    ('-' ∉ ("example.com" : String).data) ∧ ('-' ∉ ("/ws" : String).data) ∧
    (configKey "example.com" "example.com" "/ws" true false
        = configKey "example.com" "example.com" "/ws" true false ↔
      (("example.com" : String) = "example.com" ∧
       ("example.com" : String) = "example.com" ∧
       ("/ws" : String) = "/ws" ∧ true = true ∧ false = false)) :=
  ⟨by decide, by decide,
    configKey_deterministic_and_injective "example.com" "example.com" "/ws"
      "example.com" "example.com" "/ws" true false true false
      (by decide) (by decide) (by decide) (by decide) (by decide) (by decide)⟩

/-- Applying a concatenated call sequence is sequential composition. -/
lemma applyCalls_append (st : SysState) (cs1 cs2 : List BoundaryCall) :
    applyCalls st (cs1 ++ cs2) = applyCalls (applyCalls st cs1) cs2 := by
  simp [applyCalls, List.foldl_append]

/-- Unfolding one call of a sequence. -/
lemma applyCalls_cons (st : SysState) (c : BoundaryCall) (cs : List BoundaryCall) :
    applyCalls st (c :: cs) = applyCalls (applyCall st c) cs := rfl

/-- Repeated starts on an existing record only bump its count, shutting
nothing down. -/
lemma starts_replicate (r h p : String) (t i : Bool) (addr : String) (m : Nat) :
    ∀ (st : SysState) (rec : InstanceRecord),
      st.registry (configKey r h p t i) = some rec →
      (applyCalls st (List.replicate m
          (BoundaryCall.start r h p t i (some addr)))).registry
          (configKey r h p t i) = some { rec with count := rec.count + m } ∧
      (applyCalls st (List.replicate m
          (BoundaryCall.start r h p t i (some addr)))).shutdownIds
        = st.shutdownIds := by
  induction m with
  | zero =>
    intro st rec hrec
    exact ⟨by simpa using hrec, rfl⟩
  | succ m ih =>
    intro st rec hrec
    rw [List.replicate_succ, applyCalls_cons]
    have hreg1 : (applyCall st (BoundaryCall.start r h p t i (some addr))).registry
        (configKey r h p t i) = some { rec with count := rec.count + 1 } := by
      simp [applyCall, start_realm_hit r h p t i (some addr) st rec hrec, updateReg]
    have hsid1 : (applyCall st (BoundaryCall.start r h p t i (some addr))).shutdownIds
        = st.shutdownIds := by
      simp [applyCall, start_realm_hit r h p t i (some addr) st rec hrec,
        init_once_shutdownIds]
    obtain ⟨h1, h2⟩ := ih _ _ hreg1
    constructor
    · rw [h1]
      simp
      omega
    · rw [h2, hsid1]

/-- Draining all references of a record removes it and shuts its runtime down. -/
lemma stops_replicate (r h p : String) (t i : Bool) (m : Nat) :
    ∀ (st : SysState) (rec : InstanceRecord),
      st.registry (configKey r h p t i) = some rec →
      rec.count = m + 1 →
      (applyCalls st (List.replicate (m + 1)
          (BoundaryCall.stop r h p t i))).registry (configKey r h p t i) = none ∧
      rec.runtimeId ∈ (applyCalls st (List.replicate (m + 1)
          (BoundaryCall.stop r h p t i))).shutdownIds := by
  induction m with
  | zero =>
    intro st rec hrec hc
    rw [List.replicate_succ, applyCalls_cons]
    have hstop := stop_realm_last r h p t i st rec hrec hc
    simp [applyCalls, applyCall, hstop, updateReg]
  | succ m ih =>
    intro st rec hrec hc
    rw [List.replicate_succ, applyCalls_cons]
    have hge : 2 ≤ rec.count := by omega
    have hstop := stop_realm_dec r h p t i st rec hrec hge
    have hrec1 : (applyCall st (BoundaryCall.stop r h p t i)).registry
        (configKey r h p t i) = some { rec with count := rec.count - 1 } := by
      simp [applyCall, hstop, updateReg]
    have hcount1 : ({ rec with count := rec.count - 1 } : InstanceRecord).count
        = m + 1 := by
      simp
      omega
    exact ih _ { rec with count := rec.count - 1 } hrec1 hcount1

/-- C5: for every key and every N ≥ 1, N starts followed by N stops on a key
not previously registered leave no record for that key, and the runtime
allocated for it has been shut down. -/
theorem balanced_lifecycle (r h p : String) (t i : Bool) (addr : String)
    (N : Nat) (st : SysState) (hN : 1 ≤ N)
    (hmiss : st.registry (configKey r h p t i) = none) :
    (applyCalls st (List.replicate N (BoundaryCall.start r h p t i (some addr))
        ++ List.replicate N (BoundaryCall.stop r h p t i))).registry
        (configKey r h p t i) = none ∧
    st.nextRuntimeId ∈ (applyCalls st
        (List.replicate N (BoundaryCall.start r h p t i (some addr))
          ++ List.replicate N (BoundaryCall.stop r h p t i))).shutdownIds := by
  obtain ⟨M, rfl⟩ : ∃ M, N = M + 1 := ⟨N - 1, by omega⟩
  rw [applyCalls_append, List.replicate_succ, applyCalls_cons]
  have hrec1 : (applyCall st (BoundaryCall.start r h p t i (some addr))).registry
      (configKey r h p t i)
      = some { runtimeId := st.nextRuntimeId, count := 1, listenAddr := addr } := by
    simp [applyCall, start_realm_miss_some r h p t i addr st hmiss, updateReg]
  obtain ⟨hregN, -⟩ := starts_replicate r h p t i addr M _ _ hrec1
  have hcount : (({ runtimeId := st.nextRuntimeId, count := 1, listenAddr := addr } : InstanceRecord).count + M = M + 1) := by
    show 1 + M = M + 1
    omega
  exact stops_replicate r h p t i M _ _ hregN hcount

/-- Witness for C5 with N = 1 from the empty state. -/
theorem balanced_lifecycle_witness :
    1 ≤ 1 ∧
    initState.registry (configKey "a" "b" "c" false false) = none ∧
    ((applyCalls initState
        (List.replicate 1 (BoundaryCall.start "a" "b" "c" false false
            (some "127.0.0.1:6000"))
          ++ List.replicate 1 (BoundaryCall.stop "a" "b" "c" false false))).registry
        (configKey "a" "b" "c" false false) = none ∧
      initState.nextRuntimeId ∈ (applyCalls initState
        (List.replicate 1 (BoundaryCall.start "a" "b" "c" false false
            (some "127.0.0.1:6000"))
          ++ List.replicate 1 (BoundaryCall.stop "a" "b" "c" false false))).shutdownIds) :=
  ⟨Nat.le_refl 1, rfl,
    balanced_lifecycle "a" "b" "c" false false "127.0.0.1:6000" 1 initState
      (Nat.le_refl 1) rfl⟩

/-- After `initialize_once` both flags are set, whatever they were before. -/
lemma init_once_sets_flags (st : SysState) :
    (init_once st).logInit = true ∧ (init_once st).dnsInit = true := by
  unfold init_once
  by_cases hl : st.logInit = true <;> by_cases hd : st.dnsInit = true <;> simp [hl, hd]

/-- Under the tight once-invariant, `initialize_once` leaves each counter at
exactly 1. -/
lemma init_once_runs (st : SysState) (hinv : onceInv st) :
    (init_once st).logRuns = 1 ∧ (init_once st).dnsRuns = 1 := by
  obtain ⟨h1, h2⟩ := hinv
  unfold init_once
  by_cases hl : st.logInit = true <;> by_cases hd : st.dnsInit = true <;>
    simp_all [hl, hd]

/-- A start call leaves the flag/counter fields exactly as `initialize_once`
left them. -/
lemma applyCall_start_once_fields (r h p : String) (t i : Bool)
    (port : Option String) (st : SysState) :
    (applyCall st (BoundaryCall.start r h p t i port)).logInit
        = (init_once st).logInit ∧
    (applyCall st (BoundaryCall.start r h p t i port)).dnsInit
        = (init_once st).dnsInit ∧
    (applyCall st (BoundaryCall.start r h p t i port)).logRuns
        = (init_once st).logRuns ∧
    (applyCall st (BoundaryCall.start r h p t i port)).dnsRuns
        = (init_once st).dnsRuns := by
  rcases hcase : st.registry (configKey r h p t i) with _ | rec
  · cases port with
    | none =>
      simp [applyCall, start_realm_miss_none r h p t i st hcase]
    | some addr =>
      simp [applyCall, start_realm_miss_some r h p t i addr st hcase]
  · simp [applyCall, start_realm_hit r h p t i port st rec hcase]

/-- A stop call never touches the flag/counter fields: `stop_realm` does not
call `initialize_once`. -/
lemma applyCall_stop_once_fields (r h p : String) (t i : Bool) (st : SysState) :
    (applyCall st (BoundaryCall.stop r h p t i)).logInit = st.logInit ∧
    (applyCall st (BoundaryCall.stop r h p t i)).dnsInit = st.dnsInit ∧
    (applyCall st (BoundaryCall.stop r h p t i)).logRuns = st.logRuns ∧
    (applyCall st (BoundaryCall.stop r h p t i)).dnsRuns = st.dnsRuns := by
  rcases hcase : st.registry (configKey r h p t i) with _ | rec
  · simp [applyCall, stop_realm_unknown r h p t i st hcase]
  · simp only [applyCall, stop_realm, hcase]
    split <;> simp

/-- Any single boundary call preserves the tight once-invariant. -/
lemma onceInv_applyCall (st : SysState) (c : BoundaryCall) (hinv : onceInv st) :
    onceInv (applyCall st c) := by
  cases c with
  | start r h p t i port =>
    obtain ⟨hl, hd, hlr, hdr⟩ := applyCall_start_once_fields r h p t i port st
    obtain ⟨hl1, hd1⟩ := init_once_sets_flags st
    obtain ⟨hr1, hr2⟩ := init_once_runs st hinv
    constructor
    · rw [hlr, hr1, hl, hl1]
      simp
    · rw [hdr, hr2, hd, hd1]
      simp
  | stop r h p t i =>
    obtain ⟨hl, hd, hlr, hdr⟩ := applyCall_stop_once_fields r h p t i st
    obtain ⟨h1, h2⟩ := hinv
    exact ⟨by rw [hlr, hl, h1], by rw [hdr, hd, h2]⟩

/-- Any call sequence preserves the tight once-invariant. -/
lemma onceInv_applyCalls :
    ∀ (cs : List BoundaryCall) (st : SysState), onceInv st →
      onceInv (applyCalls st cs) := by
  intro cs
  induction cs with
  | nil => intro st hinv; exact hinv
  | cons c cs ih =>
    intro st hinv
    rw [applyCalls_cons]
    exact ih _ (onceInv_applyCall st c hinv)

/-- Once both flags are set they stay set across any call sequence. -/
lemma flags_mono_applyCalls :
    ∀ (cs : List BoundaryCall) (st : SysState),
      st.logInit = true → st.dnsInit = true →
      (applyCalls st cs).logInit = true ∧ (applyCalls st cs).dnsInit = true := by
  intro cs
  induction cs with
  | nil => intro st hl hd; exact ⟨hl, hd⟩
  | cons c cs ih =>
    intro st hl hd
    rw [applyCalls_cons]
    cases c with
    | start r h p t i port =>
      obtain ⟨h1, h2, -, -⟩ := applyCall_start_once_fields r h p t i port st
      obtain ⟨h3, h4⟩ := init_once_sets_flags st
      exact ih _ (by rw [h1, h3]) (by rw [h2, h4])
    | stop r h p t i =>
      obtain ⟨h1, h2, -, -⟩ := applyCall_stop_once_fields r h p t i st
      exact ih _ (by rw [h1, hl]) (by rw [h2, hd])

/-- A call sequence containing at least one start leaves both flags set. -/
lemma flags_after_start_mem :
    ∀ (cs : List BoundaryCall) (st : SysState),
      (∃ c ∈ cs, c.isStart = true) →
      (applyCalls st cs).logInit = true ∧ (applyCalls st cs).dnsInit = true := by
  intro cs
  induction cs with
  | nil =>
    intro st hmem
    simp at hmem
  | cons c cs ih =>
    intro st hmem
    rw [applyCalls_cons]
    rcases hmem with ⟨c', hc', hstart⟩
    rcases List.mem_cons.mp hc' with rfl | hmem'
    · cases c' with
      | start r h p t i port =>
        obtain ⟨h1, h2, -, -⟩ := applyCall_start_once_fields r h p t i port st
        obtain ⟨h3, h4⟩ := init_once_sets_flags st
        exact flags_mono_applyCalls cs _ (by rw [h1, h3]) (by rw [h2, h4])
      | stop r h p t i =>
        cases hstart
    · exact ih _ ⟨c', hmem', hstart⟩

/-- Counterexample for C7: the first boundary call being a `stop_realm` does
not initialize either subsystem — `stop_realm` never calls `initialize_once`. -/
theorem once_init_counterexample :
    (applyCall initState
        (BoundaryCall.stop "example.com" "example.com" "/ws" true false)).logInit
      = false ∧
    (applyCall initState
        (BoundaryCall.stop "example.com" "example.com" "/ws" true false)).dnsInit
      = false ∧
    (applyCall initState
        (BoundaryCall.stop "example.com" "example.com" "/ws" true false)).logRuns
      = 0 ∧
    (applyCall initState
        (BoundaryCall.stop "example.com" "example.com" "/ws" true false)).dnsRuns
      = 0 := by
  decide

/-- C7 (amended): over any sequence of boundary calls from process start, each
subsystem setup runs at most once; after the first `start_realm` call both
subsystems are initialized and no later call re-runs either setup — but a
leading `stop_realm` performs no initialization. -/
theorem once_init_behaviour (cs : List BoundaryCall) :
    (applyCalls initState cs).logRuns ≤ 1 ∧
    (applyCalls initState cs).dnsRuns ≤ 1 ∧
    ((∃ c ∈ cs, c.isStart = true) →
      (applyCalls initState cs).logInit = true ∧
      (applyCalls initState cs).dnsInit = true ∧
      (applyCalls initState cs).logRuns = 1 ∧
      (applyCalls initState cs).dnsRuns = 1) := by
  have hinv : onceInv (applyCalls initState cs) :=
    onceInv_applyCalls cs initState ⟨rfl, rfl⟩
  obtain ⟨h1, h2⟩ := hinv
  refine ⟨?_, ?_, ?_⟩
  · rw [h1]
    split <;> omega
  · rw [h2]
    split <;> omega
  · intro hmem
    obtain ⟨hl, hd⟩ := flags_after_start_mem cs initState hmem
    exact ⟨hl, hd, by rw [h1, hl]; rfl, by rw [h2, hd]; rfl⟩

/-- Witness for the amended C7 with a single concrete start call. -/
theorem once_init_behaviour_witness :
    (∃ c ∈ [BoundaryCall.start "a" "b" "c" false false none], c.isStart = true) ∧
    ((applyCalls initState
        [BoundaryCall.start "a" "b" "c" false false none]).logInit = true ∧
      (applyCalls initState
        [BoundaryCall.start "a" "b" "c" false false none]).dnsInit = true ∧
      (applyCalls initState
        [BoundaryCall.start "a" "b" "c" false false none]).logRuns = 1 ∧
      (applyCalls initState
        [BoundaryCall.start "a" "b" "c" false false none]).dnsRuns = 1) := by
  have hmem : ∃ c ∈ [BoundaryCall.start "a" "b" "c" false false none],
      c.isStart = true :=
    ⟨BoundaryCall.start "a" "b" "c" false false none, List.mem_singleton.mpr rfl, rfl⟩
  exact ⟨hmem,
    (once_init_behaviour [BoundaryCall.start "a" "b" "c" false false none]).2.2 hmem⟩

/-- C9: `run` spawns, per endpoint, a UDP worker exactly when `use_udp` and a
TCP worker exactly unless `no_tcp`; all spawned tasks are collected, and `run`
terminates exactly when every spawned worker terminates on its own (join-all:
no worker's outcome cancels another, each task's termination is consulted). -/
theorem run_spawns_and_joins_all (endpoints : List EndpointInfo)
    (terminates : WorkerTask → Bool) :
    (∀ w : WorkerTask, w ∈ runWorkers endpoints ↔
      ∃ info ∈ endpoints,
        (info.use_udp = true ∧ w = WorkerTask.udp info.endpoint) ∨
        (info.no_tcp = false ∧ w = WorkerTask.tcp info.endpoint)) ∧
    (runTerminates endpoints terminates = true ↔
      ∀ w ∈ runWorkers endpoints, terminates w = true) := by
  constructor
  · intro w
    simp only [runWorkers, List.mem_flatMap, List.mem_append]
    constructor
    · rintro ⟨info, hinfo, hw⟩
      refine ⟨info, hinfo, ?_⟩
      rcases hw with hw | hw
      · by_cases hu : info.use_udp = true
        · rw [if_pos hu] at hw
          exact Or.inl ⟨hu, List.mem_singleton.mp hw⟩
        · rw [if_neg hu] at hw
          cases hw
      · by_cases hn : info.no_tcp = true
        · rw [if_pos hn] at hw
          cases hw
        · rw [if_neg hn] at hw
          exact Or.inr ⟨by simpa using hn, List.mem_singleton.mp hw⟩
    · rintro ⟨info, hinfo, hcase⟩
      refine ⟨info, hinfo, ?_⟩
      rcases hcase with ⟨hu, rfl⟩ | ⟨hn, rfl⟩
      · exact Or.inl (by simp [hu])
      · exact Or.inr (by simp [hn])
  · simp [runTerminates, List.all_eq_true]

/-- C10: every instance provisioned through `start_realm` is spawned with a
single endpoint whose resolved network options are `use_udp = true` and
`no_tcp = false`, so its orchestrator spawns exactly one UDP and one TCP
worker — the boundary can never produce a worker-disabled (in particular
zero-worker) configuration. -/
theorem boundary_spawns_both_workers (r h p addr : String) (t i : Bool)
    (st : SysState) (hmiss : st.registry (configKey r h p t i) = none) :
    ∃ info : EndpointInfo,
      (start_realm r h p t i (some addr) st).1.spawned
        = (st.nextRuntimeId, [info]) :: st.spawned ∧
      info.use_udp = true ∧
      info.no_tcp = false ∧
      runWorkers [info] = [WorkerTask.udp info.endpoint, WorkerTask.tcp info.endpoint] := by
  refine ⟨Config.build (create_endpoint_conf r addr create_net_conf p t i),
    ?_, rfl, rfl, rfl⟩
  rw [start_realm_miss_some r h p t i addr st hmiss]
  rfl

/-- Witness for C10 at the empty state. -/
theorem boundary_spawns_both_workers_witness :
    initState.registry (configKey "a" "b" "c" true true) = none ∧
    ∃ info : EndpointInfo,
      (start_realm "a" "b" "c" true true (some "127.0.0.1:6000") initState).1.spawned
        = (initState.nextRuntimeId, [info]) :: initState.spawned ∧
      info.use_udp = true ∧
      info.no_tcp = false ∧
      runWorkers [info] = [WorkerTask.udp info.endpoint, WorkerTask.tcp info.endpoint] :=
  ⟨rfl, boundary_spawns_both_workers "a" "b" "c" "127.0.0.1:6000" true true
    initState rfl⟩
